import Mathlib

/-!
# Verification of the bird-nest detection pipeline

Shallow embedding of the detection pipeline of this repository:

* the YOLO output decoder `processYoloOutput`, which exists in two variants
  (the model-service module, embedded in namespace `ModelService`, and the
  web-worker module, embedded in namespace `ModelWorker`);
* the image preprocessor `preprocessImage`;
* the worker message loop (`self.onmessage`).

Floating-point values are modelled as rationals.  A JavaScript number that
may be `undefined` (an out-of-bounds typed-array read) or `NaN` is modelled
as `Option ℚ` with `none` for `undefined`/`NaN`: in JavaScript every
relational comparison against `undefined` or `NaN` evaluates to `false`,
and arithmetic on them yields `NaN`; the `j...` helpers below implement
exactly those semantics.  The decoder sources contain no `throw` statement
(their trailing heuristic is wrapped in a `try`/`catch` whose body cannot
raise), so both decoders are embedded as total functions.
-/

namespace BirdEye

/-- A JavaScript numeric value: `some q` for an ordinary number, `none` for
`undefined`/`NaN` (e.g. the result of an out-of-bounds typed-array read). -/
abbrev JSVal := Option ℚ

/-- Read `data[i]` from a `Float32Array`: out of bounds gives `undefined`. -/
def jread (data : List ℚ) (i : ℕ) : JSVal :=
  data.get? i

/-- JavaScript `v < t` for a possibly-undefined `v` and an ordinary `t`:
comparisons against `undefined`/`NaN` are `false`. -/
def jltQ : JSVal → ℚ → Bool
  | some x, t => decide (x < t)
  | none, _ => false

/-- JavaScript `v >= t`: comparisons against `undefined`/`NaN` are `false`. -/
def jgeQ : JSVal → ℚ → Bool
  | some x, t => decide (t ≤ x)
  | none, _ => false

/-- JavaScript `v * s` with an ordinary right operand: `NaN` propagates. -/
def jmulQ (v : JSVal) (s : ℚ) : JSVal :=
  v.map (fun x => x * s)

/-- JavaScript `a - b`: `NaN` propagates. -/
def jsub (a b : JSVal) : JSVal :=
  a.bind (fun x => b.map (fun y => x - y))

/-- JavaScript `v / s` with an ordinary nonzero right operand. -/
def jdivQ (v : JSVal) (s : ℚ) : JSVal :=
  v.map (fun x => x / s)

/-- JavaScript `Math.round`, which rounds half-up (towards `+∞`). -/
def jround (v : JSVal) : Option ℤ :=
  v.map (fun x => ⌊x + 1 / 2⌋)

/-- JavaScript `Math.min` of a possibly-`NaN` value and an integer. -/
def jminI (v : Option ℤ) (n : ℤ) : Option ℤ :=
  v.map (fun x => min x n)

/-- JavaScript array indexing `l[i]` with a possibly-`NaN`, possibly-negative
index: a negative or out-of-range index yields `undefined`. -/
def jindexI (l : List String) (i : Option ℤ) : Option String :=
  match i with
  | none => none
  | some k => if 0 ≤ k then l.get? k.toNat else none

/-- `const classNames = ['birdnest'];` (identical in both modules). -/
def classNames : List String := ["birdnest"]

/-- A detection as produced by the decoder (`BirdNestDetection` in
`src/types/index.ts`).  Box coordinates and score may be `NaN`/`undefined`
when the decoder read past the end of its buffer, the class id may be any
(rounded) number in the heuristic branch, and the class name is the result
of a JavaScript array lookup, hence possibly `undefined`. -/
structure BirdNestDetection where
  bbox : JSVal × JSVal × JSVal × JSVal
  score : JSVal
  class_id : Option ℤ
  class_name : Option String
deriving DecidableEq, Repr

/-- A raw model output tensor: flat value buffer plus shape (`dims`). -/
structure RawOutputTensor where
  data : List ℚ
  dims : List ℕ
deriving DecidableEq, Repr

/-- The per-candidate class scan, shared by the decoders: starting from
`maxClassProb = 0, classId = 0`, visit each class slot `idxOf c` and keep
the largest probability together with its class index.  A slot read that
yields `undefined` fails the `>` comparison and is skipped, as in
JavaScript. -/
def bestClass (data : List ℚ) (idxOf : ℕ → ℕ) : ℚ × ℕ :=
  (List.range classNames.length).foldl
    (fun acc c =>
      match jread data (idxOf c) with
      | some classProb => if acc.1 < classProb then (classProb, c) else acc
      | none => acc)
    (0, 0)

/-- The bounded class scan of the worker's 3-dimensional fallback branch:
a slot is visited only when `baseIdx + 5 + c < baseIdx + elementsPerDetection`. -/
def bestClassBounded (data : List ℚ) (baseIdx elementsPerDetection : ℕ) : ℚ × ℕ :=
  (List.range classNames.length).foldl
    (fun acc c =>
      if baseIdx + 5 + c < baseIdx + elementsPerDetection then
        match jread data (baseIdx + 5 + c) with
        | some classProb => if acc.1 < classProb then (classProb, c) else acc
        | none => acc
      else acc)
    (0, 0)

/-- `getIndexFrom4D` from the model-service module. -/
def getIndexFrom4D (dimensions : List ℕ) (n c h w : ℕ) : ℕ :=
  n * dimensions.getD 1 0 * dimensions.getD 2 0 * dimensions.getD 3 0 +
    c * dimensions.getD 2 0 * dimensions.getD 3 0 +
    h * dimensions.getD 3 0 + w

/-- Body of one iteration of the format-1 loop
(`[1, num_detections, 5+num_classes]`), textually identical in the
model-service and worker modules: read `x, y, w, h, confidence` at
`baseIndex .. baseIndex+4`, pre-filter on `confidence`, scan the class
slots, filter on `score = confidence * maxClassProb`, then emit the
rescaled corner box. -/
def rowStep (data : List ℚ) (detectionSize : ℕ) (xScale yScale confidenceThreshold : ℚ)
    (i : ℕ) : Option BirdNestDetection :=
  let baseIndex := i * detectionSize
  let x := jread data baseIndex
  let y := jread data (baseIndex + 1)
  let width := jread data (baseIndex + 2)
  let height := jread data (baseIndex + 3)
  let confidence := jread data (baseIndex + 4)
  if jltQ confidence confidenceThreshold then none
  else
    let mc := bestClass data (fun c => baseIndex + 5 + c)
    let score := jmulQ confidence mc.1
    if jltQ score confidenceThreshold then none
    else
      some
        { bbox := (jmulQ (jsub x (jdivQ width 2)) xScale,
                   jmulQ (jsub y (jdivQ height 2)) yScale,
                   jmulQ width xScale,
                   jmulQ height yScale)
          score := score
          class_id := some (mc.2 : ℤ)
          class_name := classNames.get? mc.2 }

/-- Body of one iteration of the shared flat stride-6 heuristic
(`[x, y, w, h, conf, cls]` records): the k-th iteration starts at
`i = 6 * k`; a trailing partial record (`i + 5 ≥ length`) is skipped;
`confidence` is read at `i + 4` and compared with `>=`; the class id is
`Math.round` of slot `i + 5` and the class name is looked up at
`Math.min(classId, classNames.length - 1)`. -/
def fallbackStep (flatData : List ℚ) (xScale yScale confidenceThreshold : ℚ)
    (k : ℕ) : Option BirdNestDetection :=
  let i := 6 * k
  if i + 5 < flatData.length then
    let confidence := jread flatData (i + 4)
    if jgeQ confidence confidenceThreshold then
      let x := jread flatData i
      let y := jread flatData (i + 1)
      let width := jread flatData (i + 2)
      let height := jread flatData (i + 3)
      let classId := jround (jread flatData (i + 5))
      some
        { bbox := (jmulQ (jsub x (jdivQ width 2)) xScale,
                   jmulQ (jsub y (jdivQ height 2)) yScale,
                   jmulQ width xScale,
                   jmulQ height yScale)
          score := confidence
          class_id := classId
          class_name := jindexI classNames (jminI classId ((classNames.length : ℤ) - 1)) }
    else none
  else none

/-- The flat stride-6 record scan: `for (i = 0; i < length; i += 6)`,
hence `⌈length / 6⌉` iterations. -/
def fallbackRecords (flatData : List ℚ) (xScale yScale confidenceThreshold : ℚ) :
    List BirdNestDetection :=
  (List.range ((flatData.length + 5) / 6)).filterMap
    (fallbackStep flatData xScale yScale confidenceThreshold)

namespace ModelService

/-- Body of one grid cell of the model-service format-2 branch
(`[1, C, gridHeight, gridWidth]`): confidence at channel 4, class scores
from channel 5, box parameters at channels 0–3, all addressed through
`getIndexFrom4D` with batch index 0. -/
def gridStep (data : List ℚ) (dimensions : List ℕ) (xScale yScale confidenceThreshold : ℚ)
    (cy cx : ℕ) : Option BirdNestDetection :=
  let confidence := jread data (getIndexFrom4D dimensions 0 4 cy cx)
  if jltQ confidence confidenceThreshold then none
  else
    let mc := bestClass data (fun c => getIndexFrom4D dimensions 0 (5 + c) cy cx)
    let score := jmulQ confidence mc.1
    if jltQ score confidenceThreshold then none
    else
      let x := jread data (getIndexFrom4D dimensions 0 0 cy cx)
      let y := jread data (getIndexFrom4D dimensions 0 1 cy cx)
      let width := jread data (getIndexFrom4D dimensions 0 2 cy cx)
      let height := jread data (getIndexFrom4D dimensions 0 3 cy cx)
      some
        { bbox := (jmulQ (jsub x (jdivQ width 2)) xScale,
                   jmulQ (jsub y (jdivQ height 2)) yScale,
                   jmulQ width xScale,
                   jmulQ height yScale)
          score := score
          class_id := some (mc.2 : ℤ)
          class_name := classNames.get? mc.2 }

/-- Body of one iteration of the model-service format-3 branch
(`[1, 84, num_boxes]`): channel `c` of box `i` at flat index
`c * numBoxes + i`; channel 4 is used directly as the score, the class is
fixed to 0. -/
def flatStep (data : List ℚ) (numBoxes : ℕ) (xScale yScale confidenceThreshold : ℚ)
    (i : ℕ) : Option BirdNestDetection :=
  let x := jread data (0 * numBoxes + i)
  let y := jread data (1 * numBoxes + i)
  let width := jread data (2 * numBoxes + i)
  let height := jread data (3 * numBoxes + i)
  let confidence := jread data (4 * numBoxes + i)
  if jltQ confidence confidenceThreshold then none
  else
    some
      { bbox := (jmulQ (jsub x (jdivQ width 2)) xScale,
                 jmulQ (jsub y (jdivQ height 2)) yScale,
                 jmulQ width xScale,
                 jmulQ height yScale)
        score := confidence
        class_id := some 0
        class_name := classNames.get? 0 }

/-- `processYoloOutput` of the model-service module.  Branch dispatch, in
source order: format 1 when `dims.length === 3 && dims[2] > 5`; format 2
when `dims.length === 4`; format 3 when `dims.length === 3 && dims[1] === 84`;
otherwise the flat stride-6 heuristic, whose result replaces the (empty)
detection list only when it is non-empty. -/
def processYoloOutput (outputTensor : RawOutputTensor)
    (originalWidth originalHeight modelWidth modelHeight confidenceThreshold : ℚ) :
    List BirdNestDetection :=
  let data := outputTensor.data
  let dimensions := outputTensor.dims
  let xScale := originalWidth / modelWidth
  let yScale := originalHeight / modelHeight
  if dimensions.length = 3 ∧ 5 < dimensions.getD 2 0 then
    (List.range (dimensions.getD 1 0)).filterMap
      (rowStep data (dimensions.getD 2 0) xScale yScale confidenceThreshold)
  else if dimensions.length = 4 then
    (List.range (dimensions.getD 2 0)).flatMap
      (fun cy =>
        (List.range (dimensions.getD 3 0)).filterMap
          (fun cx => gridStep data dimensions xScale yScale confidenceThreshold cy cx))
  else if dimensions.length = 3 ∧ dimensions.getD 1 0 = 84 then
    (List.range (dimensions.getD 2 0)).filterMap
      (flatStep data (dimensions.getD 2 0) xScale yScale confidenceThreshold)
  else
    let batchDetections := fallbackRecords data xScale yScale confidenceThreshold
    if 0 < batchDetections.length then batchDetections else []

end ModelService

namespace ModelWorker

/-- Body of one iteration of the worker's 3-dimensional fallback branch
(`[batch, num_detections, elementsPerDetection]`): confidence is read at
`baseIdx + 4` unconditionally (the record may be narrower than 5); the
class scan is bounded by the record width; the score falls back to
`confidence * 1` when the scanned maximum is not positive. -/
def threeDStep (data : List ℚ) (numDetections elementsPerDetection : ℕ)
    (xScale yScale confidenceThreshold : ℚ) (b i : ℕ) : Option BirdNestDetection :=
  let baseIdx := b * numDetections * elementsPerDetection + i * elementsPerDetection
  let confidence := jread data (baseIdx + 4)
  if jgeQ confidence confidenceThreshold then
    let x := jread data baseIdx
    let y := jread data (baseIdx + 1)
    let width := jread data (baseIdx + 2)
    let height := jread data (baseIdx + 3)
    let mc := bestClassBounded data baseIdx elementsPerDetection
    let score := jmulQ confidence (if 0 < mc.1 then mc.1 else 1)
    if jltQ score confidenceThreshold then none
    else
      some
        { bbox := (jmulQ (jsub x (jdivQ width 2)) xScale,
                   jmulQ (jsub y (jdivQ height 2)) yScale,
                   jmulQ width xScale,
                   jmulQ height yScale)
          score := score
          class_id := some (mc.2 : ℤ)
          class_name := classNames.get? mc.2 }
  else none

/-- `processYoloOutput` of the worker module.  Branch dispatch, in source
order: format 1 when `dims.length === 3 && dims[2] > 5`; the flat stride-6
heuristic when `dims.length === 1 || (dims.length === 2 && dims[0] === 1)`;
the 3-dimensional fallback when `dims.length === 3`; otherwise the
detection list stays empty. -/
def processYoloOutput (outputTensor : RawOutputTensor)
    (originalWidth originalHeight modelWidth modelHeight confidenceThreshold : ℚ) :
    List BirdNestDetection :=
  let data := outputTensor.data
  let dimensions := outputTensor.dims
  let xScale := originalWidth / modelWidth
  let yScale := originalHeight / modelHeight
  if dimensions.length = 3 ∧ 5 < dimensions.getD 2 0 then
    (List.range (dimensions.getD 1 0)).filterMap
      (rowStep data (dimensions.getD 2 0) xScale yScale confidenceThreshold)
  else if dimensions.length = 1 ∨ (dimensions.length = 2 ∧ dimensions.getD 0 0 = 1) then
    fallbackRecords data xScale yScale confidenceThreshold
  else if dimensions.length = 3 then
    (List.range (dimensions.getD 0 0)).flatMap
      (fun b =>
        (List.range (dimensions.getD 1 0)).filterMap
          (threeDStep data (dimensions.getD 1 0) (dimensions.getD 2 0)
            xScale yScale confidenceThreshold b))
  else []

/-- Buffer indices accessed by one format-1 iteration, following the loop
body exactly: `x, y, w, h, confidence` at `baseIndex .. baseIndex+4` are
read unconditionally; the class slots `baseIndex+5+c` are read only when
the confidence pre-filter passes (otherwise `continue` fires first). -/
def rowStepReads (data : List ℚ) (detectionSize : ℕ) (confidenceThreshold : ℚ)
    (i : ℕ) : List ℕ :=
  let baseIndex := i * detectionSize
  [baseIndex, baseIndex + 1, baseIndex + 2, baseIndex + 3, baseIndex + 4] ++
    (if jltQ (jread data (baseIndex + 4)) confidenceThreshold then []
     else (List.range classNames.length).map (fun c => baseIndex + 5 + c))

/-- Buffer indices accessed by one iteration of the flat stride-6 heuristic:
nothing for a trailing partial record; otherwise the confidence slot
`i + 4`, then the box and class-id slots only when the threshold test
passes.  (The preceding `Array.from(data)` copies the whole buffer with
trivially in-bounds reads; those are not listed.) -/
def fallbackStepReads (flatData : List ℚ) (confidenceThreshold : ℚ) (k : ℕ) : List ℕ :=
  let i := 6 * k
  if i + 5 < flatData.length then
    (i + 4) ::
      (if jgeQ (jread flatData (i + 4)) confidenceThreshold then
        [i, i + 1, i + 2, i + 3, i + 5]
       else [])
  else []

/-- Buffer indices accessed by one iteration of the worker's 3-dimensional
fallback branch: the confidence slot `baseIdx + 4` is read unconditionally
(whatever the record width `elementsPerDetection`); when the threshold test
passes, the box slots `baseIdx .. baseIdx+3` and the bound-checked class
slots follow. -/
def threeDStepReads (data : List ℚ) (numDetections elementsPerDetection : ℕ)
    (confidenceThreshold : ℚ) (b i : ℕ) : List ℕ :=
  let baseIdx := b * numDetections * elementsPerDetection + i * elementsPerDetection
  (baseIdx + 4) ::
    (if jgeQ (jread data (baseIdx + 4)) confidenceThreshold then
      [baseIdx, baseIdx + 1, baseIdx + 2, baseIdx + 3] ++
        (List.range classNames.length).filterMap
          (fun c =>
            if baseIdx + 5 + c < baseIdx + elementsPerDetection then some (baseIdx + 5 + c)
            else none)
     else [])

/-- All buffer indices the worker's `processYoloOutput` reads from the
value buffer, branch by branch, mirroring the dispatch of
`ModelWorker.processYoloOutput`. -/
def readIndices (outputTensor : RawOutputTensor) (confidenceThreshold : ℚ) : List ℕ :=
  let data := outputTensor.data
  let dimensions := outputTensor.dims
  if dimensions.length = 3 ∧ 5 < dimensions.getD 2 0 then
    (List.range (dimensions.getD 1 0)).flatMap
      (rowStepReads data (dimensions.getD 2 0) confidenceThreshold)
  else if dimensions.length = 1 ∨ (dimensions.length = 2 ∧ dimensions.getD 0 0 = 1) then
    (List.range ((data.length + 5) / 6)).flatMap
      (fallbackStepReads data confidenceThreshold)
  else if dimensions.length = 3 then
    (List.range (dimensions.getD 0 0)).flatMap
      (fun b =>
        (List.range (dimensions.getD 1 0)).flatMap
          (threeDStepReads data (dimensions.getD 1 0) (dimensions.getD 2 0)
            confidenceThreshold b))
  else []

end ModelWorker

/-! ## Image preprocessor -/

/-- A `Float32Array` as a write-target: a fixed size plus the value at each
index.  A write outside the bounds is ignored, as on a JavaScript typed
array; a fresh array is zero-initialized. -/
structure Float32Buffer where
  size : ℕ
  val : ℕ → ℚ

/-- `new Float32Array(n)`: zero-initialized. -/
def Float32Buffer.new (n : ℕ) : Float32Buffer :=
  ⟨n, fun _ => 0⟩

/-- `a[i] = v` on a typed array: out-of-bounds writes are discarded. -/
def Float32Buffer.set (a : Float32Buffer) (i : ℕ) (v : ℚ) : Float32Buffer :=
  if i < a.size then ⟨a.size, fun j => if j = i then v else a.val j⟩ else a

/-- `PreprocessedImageData` from `src/types/index.ts`. -/
structure PreprocessedImageData where
  tensor : Float32Buffer
  width : ℕ
  height : ℕ
  originalWidth : ℕ
  originalHeight : ℕ

/-- The body of the pixel loop of `preprocessImage`: for pixel `(y, x)`,
read the R, G, B samples at `pixelIndex = (y*modelWidth + x)*4` (+0, +1,
+2; the alpha sample at +3 is never read), divide by 255, and write them
at `ch*modelHeight*modelWidth + y*modelWidth + x` for `ch = 0, 1, 2`. -/
def pixelWrite (imageBytes : ℕ → ℕ) (modelWidth modelHeight : ℕ)
    (buf : Float32Buffer) (y x : ℕ) : Float32Buffer :=
  let pixelIndex := (y * modelWidth + x) * 4
  let r := (imageBytes pixelIndex : ℚ) / 255
  let g := (imageBytes (pixelIndex + 1) : ℚ) / 255
  let b := (imageBytes (pixelIndex + 2) : ℚ) / 255
  ((buf.set (0 * modelHeight * modelWidth + y * modelWidth + x) r).set
      (1 * modelHeight * modelWidth + y * modelWidth + x) g).set
    (2 * modelHeight * modelWidth + y * modelWidth + x) b

/-- The inner (`x`) loop of `preprocessImage` for one row `y`. -/
def rowWrite (imageBytes : ℕ → ℕ) (modelWidth modelHeight : ℕ)
    (buf : Float32Buffer) (y : ℕ) : Float32Buffer :=
  (List.range modelWidth).foldl
    (fun buf2 x => pixelWrite imageBytes modelWidth modelHeight buf2 y x) buf

/-- `preprocessImage`.  The browser parts — decoding the image and drawing
it resized onto a canvas — are abstracted into the inputs: `imageBytes`
models the RGBA byte array `ctx.getImageData(0, 0, modelWidth, modelHeight).data`
(a `Uint8ClampedArray`, so every sample lies in 0..255), and
`originalWidth`/`originalHeight` model `img.naturalWidth`/`img.naturalHeight`
captured before the resize.  The tensor is a zero-initialized
`Float32Array(3 * modelHeight * modelWidth)` filled by the row/pixel
loops. -/
def preprocessImage (imageBytes : ℕ → ℕ) (originalWidth originalHeight : ℕ)
    (modelWidth modelHeight : ℕ) : PreprocessedImageData :=
  let tensor :=
    (List.range modelHeight).foldl
      (rowWrite imageBytes modelWidth modelHeight)
      (Float32Buffer.new (3 * modelHeight * modelWidth))
  { tensor := tensor
    width := modelWidth
    height := modelHeight
    originalWidth := originalWidth
    originalHeight := originalHeight }

/-! ## Worker message protocol -/

/-- Inbound worker messages (`WorkerMessageIn`): the `type` tag together
with the optional fields the corresponding case reads. -/
inductive WorkerMessageIn where
  | loadModel (modelUrl : Option String)
  | runInference (imageData : Option PreprocessedImageData)
      (confidenceThreshold iouThreshold : Option ℚ)

/-- Outbound worker messages (`WorkerMessageOut`). -/
inductive WorkerMessageOut where
  | modelLoaded
  | inferenceResult (detections : List BirdNestDetection)
  | error (message : String)
deriving DecidableEq, Repr

/-- JavaScript `v || d` for an optional numeric field: `undefined`, `0`
and `NaN` are falsy, so they select the default. -/
def jorDefault (v : Option ℚ) (d : ℚ) : ℚ :=
  match v with
  | some x => if x = 0 then d else x
  | none => d

/-- One step of the worker's `self.onmessage` handler, parametric in the
external ONNX runtime: `create` models `ort.InferenceSession.create`
(`Except.error` for a rejected promise) and `infer` models `runInference`
against a live session.  The handler returns the posted reply and the new
value of the module-level `session` variable; any error is caught and
posted as an `ERROR` message, leaving `session` unchanged (a failed
`LOAD_MODEL` never performs its assignment). -/
def handleMessage {Session : Type} (create : String → Except String Session)
    (infer : Session → PreprocessedImageData → ℚ → ℚ → Except String (List BirdNestDetection))
    (session : Option Session) (msg : WorkerMessageIn) :
    WorkerMessageOut × Option Session :=
  match msg with
  | .loadModel none => (.error "Model URL is required", session)
  | .loadModel (some url) =>
      match create url with
      | .ok s => (.modelLoaded, some s)
      | .error e => (.error e, session)
  | .runInference imageData confidenceThreshold iouThreshold =>
      match session with
      | none => (.error "Model is not loaded", session)
      | some s =>
          match imageData with
          | none => (.error "Image data is required", session)
          | some img =>
              match infer s img (jorDefault confidenceThreshold (1 / 4))
                  (jorDefault iouThreshold (9 / 20)) with
              | .ok detections => (.inferenceResult detections, session)
              | .error e => (.error e, session)

/-- The worker processing a queue of messages in order, threading the
module-level `session` variable, and collecting the posted replies. -/
def runWorker {Session : Type} (create : String → Except String Session)
    (infer : Session → PreprocessedImageData → ℚ → ℚ → Except String (List BirdNestDetection))
    (session : Option Session) : List WorkerMessageIn → List WorkerMessageOut × Option Session
  | [] => ([], session)
  | msg :: rest =>
      let step := handleMessage create infer session msg
      let next := runWorker create infer step.2 rest
      (step.1 :: next.1, next.2)

/-! ## Claim-side layout formulations

The two definitions below are written from the spec's wording (not from
the source) and are used only to compare the decoder against the layouts
the spec describes. -/

/-- Claim-side decode of the channel-major flat layout `[1, 84, N]`, from
the spec's words: box parameter channel `c` of detection `i` is read at
flat index `c·N + i`, channel 4 is an already-combined confidence used
directly as the score, and the class is fixed to 0 with its name looked up
from the class table. -/
def ChannelFlatSpec (data : List ℚ) (N : ℕ) (xScale yScale confidenceThreshold : ℚ) :
    List BirdNestDetection :=
  (List.range N).filterMap (fun i =>
    let confidence := jread data (4 * N + i)
    if jltQ confidence confidenceThreshold then none
    else
      some
        { bbox := (jmulQ (jsub (jread data (0 * N + i)) (jdivQ (jread data (2 * N + i)) 2)) xScale,
                   jmulQ (jsub (jread data (1 * N + i)) (jdivQ (jread data (3 * N + i)) 2)) yScale,
                   jmulQ (jread data (2 * N + i)) xScale,
                   jmulQ (jread data (3 * N + i)) yScale)
          score := confidence
          class_id := some 0
          class_name := classNames.get? 0 })

/-- Claim-side decode of the channel-major grid layout `[1, C, H, W]`,
from the spec's words: channel `ch` of cell `(row, col)` sits at flat
index `ch·H·W + row·W + col` (the batch index is always 0); channels 0–3
hold the box parameters, channel 4 the objectness, channels 5… the
per-class scores; every grid cell is iterated and yields at most one
candidate. -/
def ChannelGridSpec (data : List ℚ) (H W : ℕ) (xScale yScale confidenceThreshold : ℚ) :
    List BirdNestDetection :=
  (List.range H).flatMap (fun row =>
    (List.range W).filterMap (fun col =>
      let objectness := jread data (4 * (H * W) + row * W + col)
      if jltQ objectness confidenceThreshold then none
      else
        let mc := bestClass data (fun c => (5 + c) * (H * W) + row * W + col)
        let score := jmulQ objectness mc.1
        if jltQ score confidenceThreshold then none
        else
          some
            { bbox := (jmulQ (jsub (jread data (0 * (H * W) + row * W + col))
                         (jdivQ (jread data (2 * (H * W) + row * W + col)) 2)) xScale,
                       jmulQ (jsub (jread data (1 * (H * W) + row * W + col))
                         (jdivQ (jread data (3 * (H * W) + row * W + col)) 2)) yScale,
                       jmulQ (jread data (2 * (H * W) + row * W + col)) xScale,
                       jmulQ (jread data (3 * (H * W) + row * W + col)) yScale)
              score := score
              class_id := some (mc.2 : ℤ)
              class_name := classNames.get? mc.2 }))

/-! ## General lemmas -/

theorem jltQ_false_of_le {v : JSVal} {t1 t2 : ℚ} (h : t1 ≤ t2)
    (h2 : jltQ v t2 = false) : jltQ v t1 = false := by
  cases v with
  | none => rfl
  | some x =>
      simp only [jltQ, decide_eq_false_iff_not] at h2 ⊢
      exact fun hx => h2 (lt_of_lt_of_le hx h)

theorem jgeQ_true_of_le {v : JSVal} {t1 t2 : ℚ} (h : t1 ≤ t2)
    (h2 : jgeQ v t2 = true) : jgeQ v t1 = true := by
  cases v with
  | none => simp [jgeQ] at h2
  | some x =>
      simp only [jgeQ, decide_eq_true_eq] at h2 ⊢
      exact le_trans h h2

theorem jltQ_some_false {x t : ℚ} (h : jltQ (some x) t = false) : t ≤ x := by
  simpa only [jltQ, decide_eq_false_iff_not, not_lt] using h

theorem jgeQ_some_iff {v : JSVal} {t : ℚ} :
    jgeQ v t = true ↔ ∃ x, v = some x ∧ t ≤ x := by
  cases v with
  | none => simp [jgeQ]
  | some x => simp [jgeQ]

theorem jread_eq_some {data : List ℚ} {i : ℕ} (h : i < data.length) :
    jread data i = some (data.get ⟨i, h⟩) := by
  simp [jread, List.get?_eq_get h]

theorem jread_mem {data : List ℚ} {i : ℕ} {v : ℚ} (h : jread data i = some v) :
    v ∈ data := List.get?_mem h

theorem length_filterMap_le_of_imp {α β : Type} (l : List α) (f g : α → Option β)
    (h : ∀ a ∈ l, (f a).isSome → (g a).isSome) :
    (l.filterMap f).length ≤ (l.filterMap g).length := by
  induction l with
  | nil => simp
  | cons a l ih =>
      have ha := h a (List.mem_cons_self a l)
      have hl : ∀ b ∈ l, (f b).isSome → (g b).isSome :=
        fun b hb => h b (List.mem_cons_of_mem a hb)
      cases hf : f a with
      | none =>
          cases hg : g a with
          | none => simpa [List.filterMap_cons, hf, hg] using ih hl
          | some c =>
              simp only [List.filterMap_cons, hf, hg, List.length_cons]
              exact le_trans (ih hl) (Nat.le_succ _)
      | some b =>
          have hgs := ha (by simp [hf])
          cases hg : g a with
          | none => simp [hg] at hgs
          | some c =>
              simp only [List.filterMap_cons, hf, hg, List.length_cons]
              exact Nat.succ_le_succ (ih hl)

theorem length_filterMap_eq_of_isSome {α β : Type} (l : List α) (f : α → Option β)
    (h : ∀ a ∈ l, (f a).isSome) : (l.filterMap f).length = l.length := by
  induction l with
  | nil => rfl
  | cons a l ih =>
      have ha := h a (List.mem_cons_self a l)
      cases hf : f a with
      | none => simp [hf] at ha
      | some b =>
          simp only [List.filterMap_cons, hf, List.length_cons]
          exact congrArg Nat.succ (ih fun c hc => h c (List.mem_cons_of_mem a hc))

theorem bestClass_eq (data : List ℚ) (idxOf : ℕ → ℕ) :
    bestClass data idxOf = (max 0 ((jread data (idxOf 0)).getD 0), 0) := by
  unfold bestClass
  rw [show List.range classNames.length = [0] by simp [classNames, List.range_succ]]
  simp only [List.foldl_cons, List.foldl_nil]
  cases h : jread data (idxOf 0) with
  | none => simp [h]
  | some p =>
      simp only [h, Option.getD_some]
      split_ifs with hp
      · simp [max_eq_right hp.le]
      · simp [max_eq_left (le_of_not_lt hp)]

theorem bestClass_fst_nonneg (data : List ℚ) (idxOf : ℕ → ℕ) :
    0 ≤ (bestClass data idxOf).1 := by
  rw [bestClass_eq]; exact le_max_left 0 _

theorem bestClass_snd_eq_zero (data : List ℚ) (idxOf : ℕ → ℕ) :
    (bestClass data idxOf).2 = 0 := by
  rw [bestClass_eq]

theorem bestClassBounded_of_le (data : List ℚ) (baseIdx K : ℕ) (hK : K ≤ 5) :
    bestClassBounded data baseIdx K = (0, 0) := by
  unfold bestClassBounded
  rw [show List.range classNames.length = [0] by simp [classNames, List.range_succ]]
  simp only [List.foldl_cons, List.foldl_nil, Nat.add_zero]
  rw [if_neg (by omega)]

theorem bestClassBounded_fst_nonneg (data : List ℚ) (baseIdx K : ℕ) :
    0 ≤ (bestClassBounded data baseIdx K).1 := by
  unfold bestClassBounded
  rw [show List.range classNames.length = [0] by simp [classNames, List.range_succ]]
  simp only [List.foldl_cons, List.foldl_nil, Nat.add_zero]
  split_ifs with hb
  · cases h : jread data (baseIdx + 5) with
    | none => simp
    | some p =>
        simp only
        split_ifs with hp
        · exact hp.le
        · exact le_refl 0
  · exact le_refl 0

theorem bestClassBounded_snd_eq_zero (data : List ℚ) (baseIdx K : ℕ) :
    (bestClassBounded data baseIdx K).2 = 0 := by
  unfold bestClassBounded
  rw [show List.range classNames.length = [0] by simp [classNames, List.range_succ]]
  simp only [List.foldl_cons, List.foldl_nil, Nat.add_zero]
  split_ifs with hb
  · cases h : jread data (baseIdx + 5) with
    | none => simp
    | some p =>
        simp only
        split_ifs <;> rfl
  · rfl

/-! ## Branch-dispatch lemmas -/

theorem ModelService.service_rows_dispatch (data : List ℚ) (N K : ℕ)
    (oW oH mW mH t : ℚ) (hK : 5 < K) :
    ModelService.processYoloOutput ⟨data, [1, N, K]⟩ oW oH mW mH t =
      (List.range N).filterMap (rowStep data K (oW / mW) (oH / mH) t) := by
  unfold ModelService.processYoloOutput
  dsimp only
  rw [if_pos (⟨rfl, hK⟩ : ([1, N, K] : List ℕ).length = 3 ∧ 5 < ([1, N, K] : List ℕ).getD 2 0)]
  rfl

theorem ModelService.service_grid_dispatch (data : List ℚ) (C H W : ℕ)
    (oW oH mW mH t : ℚ) :
    ModelService.processYoloOutput ⟨data, [1, C, H, W]⟩ oW oH mW mH t =
      (List.range H).flatMap
        (fun cy =>
          (List.range W).filterMap
            (fun cx => ModelService.gridStep data [1, C, H, W] (oW / mW) (oH / mH) t cy cx)) := by
  unfold ModelService.processYoloOutput
  dsimp only
  rw [if_neg (by simp), if_pos (show ([1, C, H, W] : List ℕ).length = 4 from rfl)]
  rfl

theorem ModelService.service_flat_dispatch (data : List ℚ) (N : ℕ)
    (oW oH mW mH t : ℚ) (hN : N ≤ 5) :
    ModelService.processYoloOutput ⟨data, [1, 84, N]⟩ oW oH mW mH t =
      (List.range N).filterMap (ModelService.flatStep data N (oW / mW) (oH / mH) t) := by
  unfold ModelService.processYoloOutput
  dsimp only
  rw [if_neg (by simp; omega), if_neg (by simp),
    if_pos (⟨rfl, rfl⟩ : ([1, 84, N] : List ℕ).length = 3 ∧ ([1, 84, N] : List ℕ).getD 1 0 = 84)]
  rfl

theorem ModelWorker.worker_rows_dispatch (data : List ℚ) (N K : ℕ)
    (oW oH mW mH t : ℚ) (hK : 5 < K) :
    ModelWorker.processYoloOutput ⟨data, [1, N, K]⟩ oW oH mW mH t =
      (List.range N).filterMap (rowStep data K (oW / mW) (oH / mH) t) := by
  unfold ModelWorker.processYoloOutput
  dsimp only
  rw [if_pos (⟨rfl, hK⟩ : ([1, N, K] : List ℕ).length = 3 ∧ 5 < ([1, N, K] : List ℕ).getD 2 0)]
  rfl

theorem ModelWorker.worker_threeD_dispatch (data : List ℚ) (N K : ℕ)
    (oW oH mW mH t : ℚ) (hK : K ≤ 5) :
    ModelWorker.processYoloOutput ⟨data, [1, N, K]⟩ oW oH mW mH t =
      (List.range 1).flatMap
        (fun b =>
          (List.range N).filterMap
            (ModelWorker.threeDStep data N K (oW / mW) (oH / mH) t b)) := by
  unfold ModelWorker.processYoloOutput
  dsimp only
  rw [if_neg (by simp; omega), if_neg (by simp),
    if_pos (show ([1, N, K] : List ℕ).length = 3 from rfl)]
  rfl

/-! ## Emission monotonicity in the threshold -/

theorem rowStep_isSome_mono (data : List ℚ) (K : ℕ) (xS yS t1 t2 : ℚ) (h : t1 ≤ t2) (i : ℕ)
    (hs : (rowStep data K xS yS t2 i).isSome = true) :
    (rowStep data K xS yS t1 i).isSome = true := by
  simp only [rowStep] at hs ⊢
  cases hc2 : jltQ (jread data (i * K + 4)) t2 with
  | true => simp [hc2] at hs
  | false =>
      have hc1 := jltQ_false_of_le h hc2
      simp only [hc2, hc1, Bool.false_eq_true, if_false] at hs ⊢
      cases hs2 : jltQ (jmulQ (jread data (i * K + 4))
          (bestClass data (fun c => i * K + 5 + c)).1) t2 with
      | true => simp [hs2] at hs
      | false => simp [jltQ_false_of_le h hs2]

theorem gridStep_isSome_mono (data : List ℚ) (dims : List ℕ) (xS yS t1 t2 : ℚ)
    (h : t1 ≤ t2) (cy cx : ℕ)
    (hs : (ModelService.gridStep data dims xS yS t2 cy cx).isSome = true) :
    (ModelService.gridStep data dims xS yS t1 cy cx).isSome = true := by
  simp only [ModelService.gridStep] at hs ⊢
  cases hc2 : jltQ (jread data (getIndexFrom4D dims 0 4 cy cx)) t2 with
  | true => simp [hc2] at hs
  | false =>
      have hc1 := jltQ_false_of_le h hc2
      simp only [hc2, hc1, Bool.false_eq_true, if_false] at hs ⊢
      cases hs2 : jltQ (jmulQ (jread data (getIndexFrom4D dims 0 4 cy cx))
          (bestClass data (fun c => getIndexFrom4D dims 0 (5 + c) cy cx)).1) t2 with
      | true => simp [hs2] at hs
      | false => simp [jltQ_false_of_le h hs2]

theorem flatStep_isSome_mono (data : List ℚ) (N : ℕ) (xS yS t1 t2 : ℚ)
    (h : t1 ≤ t2) (i : ℕ)
    (hs : (ModelService.flatStep data N xS yS t2 i).isSome = true) :
    (ModelService.flatStep data N xS yS t1 i).isSome = true := by
  simp only [ModelService.flatStep] at hs ⊢
  cases hc2 : jltQ (jread data (4 * N + i)) t2 with
  | true => simp [hc2] at hs
  | false => simp [jltQ_false_of_le h hc2]

theorem fallbackStep_isSome_mono (flatData : List ℚ) (xS yS t1 t2 : ℚ)
    (h : t1 ≤ t2) (k : ℕ)
    (hs : (fallbackStep flatData xS yS t2 k).isSome = true) :
    (fallbackStep flatData xS yS t1 k).isSome = true := by
  simp only [fallbackStep] at hs ⊢
  by_cases hb : 6 * k + 5 < flatData.length
  · simp only [if_pos hb] at hs ⊢
    cases hc2 : jgeQ (jread flatData (6 * k + 4)) t2 with
    | false => simp [hc2] at hs
    | true => simp [jgeQ_true_of_le h hc2]
  · simp [if_neg hb] at hs

/-- The number of detections returned by the model-service decoder is
non-increasing as the confidence threshold increases, for every tensor
(the branch dispatch does not depend on the threshold, and every branch
only ever filters harder at a higher threshold). -/
theorem ModelService.length_antitone (tensor : RawOutputTensor) (oW oH mW mH t1 t2 : ℚ)
    (h : t1 ≤ t2) :
    (ModelService.processYoloOutput tensor oW oH mW mH t2).length ≤
      (ModelService.processYoloOutput tensor oW oH mW mH t1).length := by
  unfold ModelService.processYoloOutput
  dsimp only
  by_cases h1 : tensor.dims.length = 3 ∧ 5 < tensor.dims.getD 2 0
  · rw [if_pos h1, if_pos h1]
    exact length_filterMap_le_of_imp _ _ _
      (fun i _ => rowStep_isSome_mono tensor.data _ _ _ _ _ h i)
  · rw [if_neg h1, if_neg h1]
    by_cases h2 : tensor.dims.length = 4
    · rw [if_pos h2, if_pos h2]
      rw [List.length_flatMap, List.length_flatMap]
      apply List.sum_le_sum
      intro cy _
      exact length_filterMap_le_of_imp _ _ _
        (fun cx _ => gridStep_isSome_mono tensor.data _ _ _ _ _ h cy cx)
    · rw [if_neg h2, if_neg h2]
      by_cases h3 : tensor.dims.length = 3 ∧ tensor.dims.getD 1 0 = 84
      · rw [if_pos h3, if_pos h3]
        exact length_filterMap_le_of_imp _ _ _
          (fun i _ => flatStep_isSome_mono tensor.data _ _ _ _ _ h i)
      · rw [if_neg h3, if_neg h3]
        have hite : ∀ l : List BirdNestDetection,
            (if 0 < l.length then l else []).length = l.length := by
          intro l
          split_ifs with hl
          · rfl
          · simp at hl
            simp [hl]
        rw [hite, hite]
        exact length_filterMap_le_of_imp _ _ _
          (fun k _ => fallbackStep_isSome_mono tensor.data _ _ _ _ h k)

/-! ## Claim theorems -/

/-- Claim C9: a `RUN_INFERENCE` request handled before any `LOAD_MODEL`
request has completed (the module-level `session` is still null) is always
answered with the not-ready `ERROR` reply and never with an
`INFERENCE_RESULT`: processing any queue that contains no `LOAD_MODEL`
message from the initial state answers every message with the error
`Model is not loaded` and leaves the session unset, so no detections are
ever produced from an unloaded session. -/
theorem runInference_before_load_is_error {Session : Type}
    (create : String → Except String Session)
    (infer : Session → PreprocessedImageData → ℚ → ℚ → Except String (List BirdNestDetection))
    (msgs : List WorkerMessageIn)
    (h : ∀ m ∈ msgs, ∀ u, m ≠ WorkerMessageIn.loadModel u) :
    runWorker create infer none msgs =
      (msgs.map (fun _ => WorkerMessageOut.error "Model is not loaded"), none) := by
  induction msgs with
  | nil => rfl
  | cons m rest ih =>
      have hm := h m (List.mem_cons_self m rest)
      cases m with
      | loadModel u => exact absurd rfl (hm u)
      | runInference img ct it =>
          have hrest : ∀ m ∈ rest, ∀ u, m ≠ WorkerMessageIn.loadModel u :=
            fun m hmem => h m (List.mem_cons_of_mem _ hmem)
          simp only [runWorker, handleMessage, List.map_cons]
          rw [ih hrest]

/-- Claim C9 witness: one inference request against the fresh worker state
is answered by the not-ready error, with a session that rejects nothing. -/
theorem runInference_before_load_is_error_witness :
    runWorker (fun _ : String => (Except.error "load failure" : Except String Unit))
      (fun _ _ _ _ => Except.ok []) none [WorkerMessageIn.runInference none none none] =
      ([WorkerMessageOut.error "Model is not loaded"], none) := by
  have h := runInference_before_load_is_error
    (fun _ : String => (Except.error "load failure" : Except String Unit))
    (fun _ _ _ _ => Except.ok []) [WorkerMessageIn.runInference none none none]
    (by
      intro m hm u
      rw [List.mem_singleton] at hm
      subst hm
      intro hcontra
      exact WorkerMessageIn.noConfusion hcontra)
  simpa using h

/-- Claim C5 counterexample: on the spec's own example of an unsupported
shape — 3-dimensional with fewer than 5 channels and a buffer too short
for a full stride-6 record — the decoder raises nothing: it returns the
ordinary empty list (the source contains no throw statement and defines no
`UnsupportedOutputShapeError` anywhere). -/
theorem decode_never_raises_counterexample :
    ModelService.processYoloOutput ⟨[0, 0, 0, 0], [1, 2, 2]⟩ 1 1 1 1 (1 / 4) = [] := by
  unfold ModelService.processYoloOutput
  dsimp only
  rw [if_neg (by simp), if_neg (by simp), if_neg (by simp)]
  rfl

/-- Claim C5 (amended): the decoder never raises — it is a total function.
The structurally-known per-detection-rows branch returns the empty list
when every buffer value is below the threshold, and a tensor whose shape
matches no known layout and whose fallback scan finds no complete
6-value record also yields the empty list rather than an error. -/
theorem decode_never_raises :
    (∀ (data : List ℚ) (N K : ℕ) (oW oH mW mH t : ℚ), 5 < K → data.length = N * K →
        (∀ v ∈ data, v < t) →
        ModelService.processYoloOutput ⟨data, [1, N, K]⟩ oW oH mW mH t = []) ∧
      ModelService.processYoloOutput ⟨[1, 2, 3], [3]⟩ 1 1 1 1 (1 / 4) = [] := by
  constructor
  · intro data N K oW oH mW mH t hK hlen hv
    rw [ModelService.service_rows_dispatch data N K oW oH mW mH t hK]
    rw [List.filterMap_eq_nil_iff]
    intro i hi
    rw [List.mem_range] at hi
    have hidx : i * K + 4 < data.length := by
      rw [hlen]
      have h2 : (i + 1) * K ≤ N * K := Nat.mul_le_mul_right K (by omega)
      have h3 : i * K + K = (i + 1) * K := by ring
      omega
    have hcv := jread_eq_some hidx
    have hvcv : data.get ⟨i * K + 4, hidx⟩ < t := hv _ (jread_mem hcv)
    have hlt : jltQ (jread data (i * K + 4)) t = true := by
      rw [hcv]
      simpa [jltQ] using hvcv
    simp [rowStep, hlt]
  · unfold ModelService.processYoloOutput
    dsimp only
    rw [if_neg (by simp), if_neg (by simp), if_neg (by simp)]
    rfl

/-- Claim C5 witness: a rows-shaped tensor whose values all sit below the
threshold decodes to the empty list. -/
theorem decode_never_raises_witness :
    (5 < 6) ∧
      ModelService.processYoloOutput ⟨[0, 0, 0, 0, 0, 0], [1, 1, 6]⟩ 1 1 1 1 (1 / 4) = [] :=
  ⟨by omega,
    decode_never_raises.1 [0, 0, 0, 0, 0, 0] 1 6 1 1 1 1 (1 / 4) (by omega) (by simp)
      (by intro v hv; simp at hv; subst hv; norm_num)⟩

/-- Claim C10 (amended): in the worker decoder, every buffer index the
per-detection-rows branch reads is within bounds whenever the buffer holds
the declared `N * K` elements; the 3-dimensional fallback branch, by
contrast, reads the confidence slot at record offset 4 unconditionally,
even when a record holds fewer than 5 elements — and when that read falls
out of bounds it yields `undefined`, the threshold comparison fails, and
the record produces no detection. -/
theorem worker_rows_reads_in_bounds :
    (∀ (data : List ℚ) (N K : ℕ) (t : ℚ) (j : ℕ), 5 < K → data.length = N * K →
        j ∈ ModelWorker.readIndices ⟨data, [1, N, K]⟩ t → j < data.length) ∧
      ∀ (data : List ℚ) (N K : ℕ) (xS yS t : ℚ) (b i : ℕ),
        jread data (b * N * K + i * K + 4) = none →
        ModelWorker.threeDStep data N K xS yS t b i = none := by
  constructor
  · intro data N K t j hK hlen hj
    unfold ModelWorker.readIndices at hj
    dsimp only at hj
    rw [if_pos (⟨rfl, hK⟩ :
      ([1, N, K] : List ℕ).length = 3 ∧ 5 < ([1, N, K] : List ℕ).getD 2 0)] at hj
    have hg1 : ([1, N, K] : List ℕ).getD 1 0 = N := rfl
    have hg2 : ([1, N, K] : List ℕ).getD 2 0 = K := rfl
    rw [hg1, hg2, List.mem_flatMap] at hj
    obtain ⟨i, hi, hji⟩ := hj
    rw [List.mem_range] at hi
    have hik : i * K + K ≤ N * K := by
      have h2 : (i + 1) * K ≤ N * K := Nat.mul_le_mul_right K (by omega)
      have h3 : i * K + K = (i + 1) * K := by ring
      omega
    rw [hlen]
    simp only [ModelWorker.rowStepReads] at hji
    rcases List.mem_append.mp hji with hl | hr
    · simp only [List.mem_cons, List.not_mem_nil, or_false] at hl
      rcases hl with h | h | h | h | h <;> omega
    · by_cases hc : jltQ (jread data (i * K + 4)) t = true
      · simp [hc] at hr
      · simp only [hc, Bool.false_eq_true, if_false, classNames, List.length_cons,
          List.length_nil, List.mem_map, List.mem_range] at hr
        obtain ⟨c, hc1, hc2⟩ := hr
        omega
  · intro data N K xS yS t b i hnone
    simp [ModelWorker.threeDStep, hnone, jgeQ]

/-- Claim C10 witness: a well-formed two-row tensor in the rows branch, in
which the index 4 is among the indices read, and it is within bounds. -/
theorem worker_rows_reads_in_bounds_witness :
    (5 < 6) ∧ (4 : ℕ) < (⟨List.replicate 12 0, [1, 2, 6]⟩ : RawOutputTensor).data.length :=
  ⟨by omega,
    worker_rows_reads_in_bounds.1 (List.replicate 12 0) 2 6 0 4 (by omega) (by simp)
      (by decide)⟩

/-- Claim C10 counterexample: for the well-formed tensor of shape
`[1, 1, 3]` (three values, records of width 3), the worker decoder's
3-dimensional fallback branch reads buffer index 4, which is outside the
3-element buffer. -/
theorem worker_reads_out_of_bounds_counterexample :
    4 ∈ ModelWorker.readIndices ⟨[0, 0, 0], [1, 1, 3]⟩ 0 ∧
      (⟨[0, 0, 0], [1, 1, 3]⟩ : RawOutputTensor).data.length = 3 ∧ ¬ (4 : ℕ) < 3 := by
  refine ⟨by decide, rfl, by omega⟩

/-- Claim C7 counterexample: at threshold 0, a per-detection-rows tensor
with two rows, the first of which has negative confidence, yields a single
detection — not one detection per structural unit. -/
theorem one_per_unit_counterexample :
    ¬ (ModelService.processYoloOutput
        ⟨[0, 0, 0, 0, -1, 0, 0, 0, 0, 0, 1, 1], [1, 2, 6]⟩ 1 1 1 1 0).length = 2 := by
  rw [ModelService.service_rows_dispatch _ 2 6 1 1 1 1 0 (by omega)]
  rw [show List.range 2 = [0, 1] from rfl]
  norm_num [rowStep, bestClass_eq, jread, jltQ, jmulQ, List.filterMap_cons]

/-- Claim C7 (amended): at threshold 0 the model-service rows branch emits
exactly one detection per row provided every row's confidence slot is
nonnegative (a negative confidence is filtered even at threshold 0), and
for every tensor the number of detections is non-increasing as the
threshold increases. -/
theorem one_per_unit_and_antitone :
    (∀ (data : List ℚ) (N K : ℕ) (oW oH mW mH : ℚ), 5 < K → data.length = N * K →
        (∀ i, i < N → 0 ≤ (jread data (i * K + 4)).getD 0) →
        (ModelService.processYoloOutput ⟨data, [1, N, K]⟩ oW oH mW mH 0).length = N) ∧
      ∀ (tensor : RawOutputTensor) (oW oH mW mH t1 t2 : ℚ), t1 ≤ t2 →
        (ModelService.processYoloOutput tensor oW oH mW mH t2).length ≤
          (ModelService.processYoloOutput tensor oW oH mW mH t1).length := by
  constructor
  · intro data N K oW oH mW mH hK hlen hconf
    rw [ModelService.service_rows_dispatch data N K oW oH mW mH 0 hK]
    rw [length_filterMap_eq_of_isSome _ _ ?_, List.length_range]
    intro i hi
    rw [List.mem_range] at hi
    have hidx : i * K + 4 < data.length := by
      rw [hlen]
      have h2 : (i + 1) * K ≤ N * K := Nat.mul_le_mul_right K (by omega)
      have h3 : i * K + K = (i + 1) * K := by ring
      omega
    have hcv := jread_eq_some hidx
    have h0 : 0 ≤ data.get ⟨i * K + 4, hidx⟩ := by
      have := hconf i hi
      rw [hcv] at this
      simpa using this
    have hc : jltQ (jread data (i * K + 4)) 0 = false := by
      rw [hcv]
      simp only [jltQ, decide_eq_false_iff_not, not_lt]
      exact h0
    have hs : jltQ (jmulQ (jread data (i * K + 4))
        (bestClass data (fun c => i * K + 5 + c)).1) 0 = false := by
      rw [hcv]
      simp only [jmulQ, Option.map_some', jltQ, decide_eq_false_iff_not, not_lt]
      exact mul_nonneg h0 (bestClass_fst_nonneg data _)
    simp [rowStep, hc, hs]
  · exact fun tensor oW oH mW mH t1 t2 h =>
      ModelService.length_antitone tensor oW oH mW mH t1 t2 h

/-- Claim C7 witness: a single-row tensor with nonnegative confidence
decodes at threshold 0 to exactly one detection. -/
theorem one_per_unit_and_antitone_witness :
    (5 < 6) ∧
      (ModelService.processYoloOutput ⟨[0, 0, 0, 0, 1, 1], [1, 1, 6]⟩ 1 1 1 1 0).length = 1 :=
  ⟨by omega,
    one_per_unit_and_antitone.1 [0, 0, 0, 0, 1, 1] 1 6 1 1 1 1 (by omega) (by simp)
      (by intro i hi; interval_cases i; norm_num [jread])⟩

/-- Claim C2: every 4-dimensional tensor `[1, C, H, W]` is decoded as the
channel-major grid: each spatial cell `(row, col)` is iterated and its
channel `ch` is read at flat index `ch·H·W + row·W + col`, with channels
0–3 the box parameters, channel 4 the objectness and channels 5… the
per-class scores — the decode equals the claim-side grid formulation. -/
theorem grid_layout_matches_spec (data : List ℚ) (C H W : ℕ) (oW oH mW mH t : ℚ) :
    ModelService.processYoloOutput ⟨data, [1, C, H, W]⟩ oW oH mW mH t =
      ChannelGridSpec data H W (oW / mW) (oH / mH) t := by
  have hidx : ∀ ch hh ww, getIndexFrom4D [1, C, H, W] 0 ch hh ww =
      ch * (H * W) + hh * W + ww := by
    intro ch hh ww
    show 0 * C * H * W + ch * H * W + hh * W + ww = ch * (H * W) + hh * W + ww
    ring
  rw [ModelService.service_grid_dispatch]
  unfold ChannelGridSpec ModelService.gridStep
  simp only [hidx]

/-- Claim C1 (amended): a raw output tensor of shape `[1, 84, N]` is
decoded as the channel-major flat layout (channel `c` of detection `i` at
`c·N + i`, channel 4 the combined confidence, class fixed to 0) only when
`N ≤ 5`; when `N > 5` the higher-priority rows branch claims the shape
first. -/
theorem flat_layout_when_N_le_5 (data : List ℚ) (N : ℕ) (oW oH mW mH t : ℚ) (hN : N ≤ 5) :
    ModelService.processYoloOutput ⟨data, [1, 84, N]⟩ oW oH mW mH t =
      ChannelFlatSpec data N (oW / mW) (oH / mH) t := by
  rw [ModelService.service_flat_dispatch data N oW oH mW mH t hN]
  rfl

/-- Claim C1 witness: an `[1, 84, 1]` tensor decodes under the flat
layout. -/
theorem flat_layout_when_N_le_5_witness :
    (1 ≤ 5) ∧
      ModelService.processYoloOutput ⟨List.replicate 84 1, [1, 84, 1]⟩ 1 1 1 1 (1 / 4) =
        ChannelFlatSpec (List.replicate 84 1) 1 (1 / 1) (1 / 1) (1 / 4) :=
  ⟨by omega, flat_layout_when_N_le_5 (List.replicate 84 1) 1 1 1 1 1 (1 / 4) (by omega)⟩

/-- Claim C1 counterexample: the well-formed tensor of shape `[1, 84, 6]`
whose first six values are `10, 10, 4, 4, 1, 1` (all remaining 498 values
zero) is NOT decoded as the channel-major flat layout: the flat
formulation yields no detection at threshold 1 (every channel-4 slot
`4·6 + i` holds 0), while the decoder, which classifies this shape as
per-detection rows because `dims[2] = 6 > 5`, emits a detection from row
0. -/
theorem flat_layout_counterexample :
    ChannelFlatSpec ([10, 10, 4, 4, 1, 1] ++ List.replicate 498 0) 6 (1 / 1) (1 / 1) 1 = [] ∧
      ModelService.processYoloOutput
          ⟨[10, 10, 4, 4, 1, 1] ++ List.replicate 498 0, [1, 84, 6]⟩ 1 1 1 1 1 ≠
        ChannelFlatSpec ([10, 10, 4, 4, 1, 1] ++ List.replicate 498 0) 6 (1 / 1) (1 / 1) 1 := by
  have hspec :
      ChannelFlatSpec ([10, 10, 4, 4, 1, 1] ++ List.replicate 498 0) 6 (1 / 1) (1 / 1) 1 = [] := by
    unfold ChannelFlatSpec
    rw [show List.range 6 = [0, 1, 2, 3, 4, 5] from rfl]
    have h24 : jread (10 :: 10 :: 4 :: 4 :: 1 :: 1 :: List.replicate 498 0) 24 = some 0 := rfl
    have h25 : jread (10 :: 10 :: 4 :: 4 :: 1 :: 1 :: List.replicate 498 0) 25 = some 0 := rfl
    have h26 : jread (10 :: 10 :: 4 :: 4 :: 1 :: 1 :: List.replicate 498 0) 26 = some 0 := rfl
    have h27 : jread (10 :: 10 :: 4 :: 4 :: 1 :: 1 :: List.replicate 498 0) 27 = some 0 := rfl
    have h28 : jread (10 :: 10 :: 4 :: 4 :: 1 :: 1 :: List.replicate 498 0) 28 = some 0 := rfl
    have h29 : jread (10 :: 10 :: 4 :: 4 :: 1 :: 1 :: List.replicate 498 0) 29 = some 0 := rfl
    norm_num [List.filterMap_cons, jltQ, h24, h25, h26, h27, h28, h29]
  refine ⟨hspec, ?_⟩
  rw [hspec]
  have hsome : (rowStep ([10, 10, 4, 4, 1, 1] ++ List.replicate 498 0) 6
      (1 / 1) (1 / 1) 1 0).isSome = true := by
    have h4 : jread (10 :: 10 :: 4 :: 4 :: 1 :: 1 :: List.replicate 498 0) 4 = some 1 := rfl
    have h5 : jread (10 :: 10 :: 4 :: 4 :: 1 :: 1 :: List.replicate 498 0) 5 = some 1 := rfl
    norm_num [rowStep, bestClass_eq, jltQ, jmulQ, max_def, h4, h5]
  obtain ⟨d0, h0⟩ := Option.isSome_iff_exists.mp hsome
  have hmem : d0 ∈ ModelService.processYoloOutput
      ⟨[10, 10, 4, 4, 1, 1] ++ List.replicate 498 0, [1, 84, 6]⟩ 1 1 1 1 1 := by
    rw [ModelService.service_rows_dispatch _ 84 6 1 1 1 1 1 (by omega)]
    exact List.mem_filterMap.mpr ⟨0, by simp, h0⟩
  intro hcontra
  rw [hcontra] at hmem
  exact List.not_mem_nil d0 hmem


/-- Claim C3: in the per-detection-rows branch, every emitted detection's
box equals the center-to-corner conversion of its row's raw values, scaled
per axis: `((cx - w/2)·origW/modelW, (cy - h/2)·origH/modelH,
w·origW/modelW, h·origH/modelH)` where `cx, cy, w, h` are the reads at row
offsets 0–3. -/
theorem box_geometry (data : List ℚ) (N K : ℕ) (oW oH mW mH t : ℚ) (hK : 5 < K) :
    ∀ d ∈ ModelService.processYoloOutput ⟨data, [1, N, K]⟩ oW oH mW mH t,
      ∃ i, i < N ∧
        d.bbox = (jmulQ (jsub (jread data (i * K)) (jdivQ (jread data (i * K + 2)) 2)) (oW / mW),
                  jmulQ (jsub (jread data (i * K + 1)) (jdivQ (jread data (i * K + 3)) 2)) (oH / mH),
                  jmulQ (jread data (i * K + 2)) (oW / mW),
                  jmulQ (jread data (i * K + 3)) (oH / mH)) := by
  intro d hd
  rw [ModelService.service_rows_dispatch data N K oW oH mW mH t hK] at hd
  rw [List.mem_filterMap] at hd
  obtain ⟨i, hi, hstep⟩ := hd
  rw [List.mem_range] at hi
  refine ⟨i, hi, ?_⟩
  simp only [rowStep] at hstep
  split_ifs at hstep
  rw [Option.some_inj] at hstep
  rw [← hstep]

/-- Claim C3 witness: the spec's round-trip example — original image
1000×500, model input 640×640, raw center-box (320, 320, 64, 64) with
passing score — decodes to the box (450, 225, 100, 50). -/
theorem box_geometry_witness :
    (5 < 6) ∧
      ∃ i, i < 1 ∧
        (⟨(some 450, some 225, some 100, some 50), some (18 / 25), some 0,
            some "birdnest"⟩ : BirdNestDetection).bbox =
          (jmulQ (jsub (jread [320, 320, 64, 64, 9 / 10, 8 / 10] (i * 6))
              (jdivQ (jread [320, 320, 64, 64, 9 / 10, 8 / 10] (i * 6 + 2)) 2)) (1000 / 640),
           jmulQ (jsub (jread [320, 320, 64, 64, 9 / 10, 8 / 10] (i * 6 + 1))
              (jdivQ (jread [320, 320, 64, 64, 9 / 10, 8 / 10] (i * 6 + 3)) 2)) (500 / 640),
           jmulQ (jread [320, 320, 64, 64, 9 / 10, 8 / 10] (i * 6 + 2)) (1000 / 640),
           jmulQ (jread [320, 320, 64, 64, 9 / 10, 8 / 10] (i * 6 + 3)) (500 / 640)) :=
  ⟨by omega,
    box_geometry [320, 320, 64, 64, 9 / 10, 8 / 10] 1 6 1000 500 640 640 (1 / 4) (by omega)
      ⟨(some 450, some 225, some 100, some 50), some (18 / 25), some 0, some "birdnest"⟩
      (by
        have hev : ModelService.processYoloOutput
            ⟨[320, 320, 64, 64, 9 / 10, 8 / 10], [1, 1, 6]⟩ 1000 500 640 640 (1 / 4) =
            [⟨(some 450, some 225, some 100, some 50), some (18 / 25), some 0,
              some "birdnest"⟩] := by
          simp only [ModelService.processYoloOutput, ModelService.flatStep, rowStep, bestClass,
            classNames, jread, jltQ, jgeQ, jmulQ, jsub, jdivQ, List.get?, List.getD, List.length,
            List.range_succ, List.range_zero, List.filterMap, Option.map, Option.bind]
          norm_num
        rw [hev]
        exact List.mem_singleton.mpr rfl)⟩

/-- Claim C4 (amended): in the worker's per-detection-rows branch every
emitted candidate has a real confidence `cv ≥ threshold`, an emitted score
equal to `cv · max(0, classSlot)` — the class-probability maximum is
clamped below at zero because the scan's running maximum starts at 0 — and
a score that itself is ≥ threshold.  The spec's unclamped
`objectness × bestClassProbability` fails when the best class slot is not
positive, and in the worker's 3-dimensional fallback such a candidate's
score falls back to the objectness alone (see the counterexample). -/
theorem score_rule_rows (data : List ℚ) (N K : ℕ) (oW oH mW mH t : ℚ)
    (hK : 5 < K) (hlen : data.length = N * K) :
    ∀ d ∈ ModelWorker.processYoloOutput ⟨data, [1, N, K]⟩ oW oH mW mH t,
      ∃ i, i < N ∧ ∃ cv,
        jread data (i * K + 4) = some cv ∧ t ≤ cv ∧
          d.score = some (cv * max 0 ((jread data (i * K + 5)).getD 0)) ∧
          ∃ sv, d.score = some sv ∧ t ≤ sv := by
  intro d hd
  rw [ModelWorker.worker_rows_dispatch data N K oW oH mW mH t hK] at hd
  rw [List.mem_filterMap] at hd
  obtain ⟨i, hi, hstep⟩ := hd
  rw [List.mem_range] at hi
  have hidx : i * K + 4 < data.length := by
    rw [hlen]
    have h2 : (i + 1) * K ≤ N * K := Nat.mul_le_mul_right K (by omega)
    have h3 : i * K + K = (i + 1) * K := by ring
    omega
  have hcv := jread_eq_some hidx
  refine ⟨i, hi, data.get ⟨i * K + 4, hidx⟩, hcv, ?_⟩
  simp only [rowStep] at hstep
  split_ifs at hstep with h1 h2
  rw [Option.some_inj] at hstep
  subst hstep
  have ht : t ≤ data.get ⟨i * K + 4, hidx⟩ := by
    rw [hcv] at h1
    simpa [jltQ, not_lt] using h1
  refine ⟨ht, ?_, ?_⟩
  · show jmulQ (jread data (i * K + 4)) (bestClass data (fun c => i * K + 5 + c)).1 = _
    rw [hcv, bestClass_eq]
    simp [jmulQ]
  · refine ⟨data.get ⟨i * K + 4, hidx⟩ * (bestClass data (fun c => i * K + 5 + c)).1, ?_, ?_⟩
    · show jmulQ (jread data (i * K + 4)) (bestClass data (fun c => i * K + 5 + c)).1 = _
      rw [hcv]
      simp [jmulQ]
    · rw [hcv] at h2
      simpa [jltQ, jmulQ, not_lt] using h2

/-- Claim C4 witness: a single-row tensor whose confidence and class slots
are 1 yields one detection whose score is the clamped product. -/
theorem score_rule_rows_witness :
    (5 < 6) ∧
      ∃ i, i < 1 ∧ ∃ cv,
        jread [0, 0, 0, 0, 1, 1] (i * 6 + 4) = some cv ∧ (1 : ℚ) / 4 ≤ cv ∧
          (⟨(some 0, some 0, some 0, some 0), some 1, some 0, some "birdnest"⟩ :
              BirdNestDetection).score =
            some (cv * max 0 ((jread [0, 0, 0, 0, 1, 1] (i * 6 + 5)).getD 0)) ∧
          ∃ sv,
            (⟨(some 0, some 0, some 0, some 0), some 1, some 0, some "birdnest"⟩ :
                BirdNestDetection).score = some sv ∧ (1 : ℚ) / 4 ≤ sv :=
  ⟨by omega,
    score_rule_rows [0, 0, 0, 0, 1, 1] 1 6 1 1 1 1 (1 / 4) (by omega) (by simp)
      ⟨(some 0, some 0, some 0, some 0), some 1, some 0, some "birdnest"⟩
      (by
        have hev : ModelWorker.processYoloOutput ⟨[0, 0, 0, 0, 1, 1], [1, 1, 6]⟩ 1 1 1 1 (1 / 4) =
            [⟨(some 0, some 0, some 0, some 0), some 1, some 0, some "birdnest"⟩] := by
          rw [ModelWorker.worker_rows_dispatch _ 1 6 1 1 1 1 (1 / 4) (by omega)]
          rw [show List.range 1 = [0] from rfl]
          norm_num [rowStep, bestClass_eq, jread, jltQ, jmulQ, jsub, jdivQ, max_def,
            List.filterMap_cons, classNames]
        rw [hev]
        exact List.mem_singleton.mpr rfl)⟩

/-- Claim C4 counterexample: at threshold 0, a row with objectness 1 and
class slot −1/2 is emitted with score 0 (the clamped scan), not the
claimed objectness × bestClassProbability = −1/2 — under the claim's rule
the candidate would not be emitted at all, since −1/2 < 0. -/
theorem score_rule_counterexample :
    ModelWorker.processYoloOutput ⟨[0, 0, 0, 0, 1, -1 / 2], [1, 1, 6]⟩ 1 1 1 1 0 =
      [⟨(some 0, some 0, some 0, some 0), some 0, some 0, some "birdnest"⟩] := by
  rw [ModelWorker.worker_rows_dispatch _ 1 6 1 1 1 1 0 (by omega)]
  rw [show List.range 1 = [0] from rfl]
  norm_num [rowStep, bestClass_eq, jread, jltQ, jmulQ, jsub, jdivQ, max_def,
    List.filterMap_cons, classNames]

/-- Claim C8 (amended): every detection emitted by the worker decoder for
a well-formed 3-dimensional `[1, N, K]` tensor at a nonnegative threshold
has `classId = 0`, `className` equal to the class-table entry `birdnest`,
and a real, nonnegative score — but the score is not bounded above by 1,
and the flat stride-6 fallback can emit scores above 1, negative class
ids, and an out-of-table (undefined) class name (see the
counterexample). -/
theorem detection_invariants (data : List ℚ) (N K : ℕ) (oW oH mW mH t : ℚ)
    (ht : 0 ≤ t) (hlen : data.length = N * K) :
    ∀ d ∈ ModelWorker.processYoloOutput ⟨data, [1, N, K]⟩ oW oH mW mH t,
      d.class_id = some 0 ∧ d.class_name = some "birdnest" ∧
        ∃ s, d.score = some s ∧ 0 ≤ s := by
  intro d hd
  by_cases hK : 5 < K
  · rw [ModelWorker.worker_rows_dispatch data N K oW oH mW mH t hK] at hd
    rw [List.mem_filterMap] at hd
    obtain ⟨i, hi, hstep⟩ := hd
    rw [List.mem_range] at hi
    have hidx : i * K + 4 < data.length := by
      rw [hlen]
      have h2 : (i + 1) * K ≤ N * K := Nat.mul_le_mul_right K (by omega)
      have h3 : i * K + K = (i + 1) * K := by ring
      omega
    have hcv := jread_eq_some hidx
    simp only [rowStep] at hstep
    split_ifs at hstep with h1 h2
    rw [Option.some_inj] at hstep
    subst hstep
    have hc0 : 0 ≤ data.get ⟨i * K + 4, hidx⟩ := by
      rw [hcv] at h1
      have hcc : ¬ data.get ⟨i * K + 4, hidx⟩ < t := by simpa [jltQ] using h1
      exact le_trans ht (not_lt.mp hcc)
    refine ⟨?_, ?_, ?_⟩
    · show some ((bestClass data (fun c => i * K + 5 + c)).2 : ℤ) = some 0
      rw [bestClass_snd_eq_zero]
      rfl
    · show classNames.get? (bestClass data (fun c => i * K + 5 + c)).2 = some "birdnest"
      rw [bestClass_snd_eq_zero]
      rfl
    · refine ⟨data.get ⟨i * K + 4, hidx⟩ * (bestClass data (fun c => i * K + 5 + c)).1, ?_, ?_⟩
      · show jmulQ (jread data (i * K + 4)) (bestClass data (fun c => i * K + 5 + c)).1 = _
        rw [hcv]
        simp [jmulQ]
      · exact mul_nonneg hc0 (bestClass_fst_nonneg data _)
  · rw [ModelWorker.worker_threeD_dispatch data N K oW oH mW mH t (by omega)] at hd
    rw [List.mem_flatMap] at hd
    obtain ⟨b, hb, hd2⟩ := hd
    rw [List.mem_filterMap] at hd2
    obtain ⟨i, hi, hstep⟩ := hd2
    have hmc := bestClassBounded_of_le data (b * N * K + i * K) K (by omega)
    simp only [ModelWorker.threeDStep, hmc] at hstep
    norm_num at hstep
    obtain ⟨hge, hlt, hstep⟩ := hstep
    subst hstep
    obtain ⟨cv, hcv, htcv⟩ := jgeQ_some_iff.mp hge
    refine ⟨rfl, rfl, cv * 1, ?_, ?_⟩
    · show jmulQ (jread data (b * N * K + i * K + 4)) 1 = _
      rw [hcv]
      rfl
    · have h0 : (0 : ℚ) ≤ cv := le_trans ht htcv
      nlinarith

/-- Claim C8 witness: a single-row tensor produces a detection with class
id 0, the table class name, and a real nonnegative score. -/
theorem detection_invariants_witness :
    ((0 : ℚ) ≤ 1 / 4) ∧
      ((⟨(some 0, some 0, some 0, some 0), some 1, some 0, some "birdnest"⟩ :
            BirdNestDetection).class_id = some 0 ∧
        (⟨(some 0, some 0, some 0, some 0), some 1, some 0, some "birdnest"⟩ :
            BirdNestDetection).class_name = some "birdnest" ∧
        ∃ s,
          (⟨(some 0, some 0, some 0, some 0), some 1, some 0, some "birdnest"⟩ :
              BirdNestDetection).score = some s ∧ 0 ≤ s) :=
  ⟨by norm_num,
    detection_invariants [0, 0, 0, 0, 1, 1] 1 6 1 1 1 1 (1 / 4) (by norm_num) (by simp)
      ⟨(some 0, some 0, some 0, some 0), some 1, some 0, some "birdnest"⟩
      (by
        have hev : ModelWorker.processYoloOutput ⟨[0, 0, 0, 0, 1, 1], [1, 1, 6]⟩ 1 1 1 1 (1 / 4) =
            [⟨(some 0, some 0, some 0, some 0), some 1, some 0, some "birdnest"⟩] := by
          rw [ModelWorker.worker_rows_dispatch _ 1 6 1 1 1 1 (1 / 4) (by omega)]
          rw [show List.range 1 = [0] from rfl]
          norm_num [rowStep, bestClass_eq, jread, jltQ, jmulQ, jsub, jdivQ, max_def,
            List.filterMap_cons, classNames]
        rw [hev]
        exact List.mem_singleton.mpr rfl)⟩

/-- Claim C8 counterexample: through the worker's flat stride-6 fallback
(shape `[12]`), a record with confidence 2 and class slot −17/5 is emitted
with score 2 ∉ [0, 1], class id −3 (a negative integer), and an undefined
class name — `classNames[Math.min(-3, 0)]` reads outside the table. -/
theorem detection_invariants_counterexample :
    ModelWorker.processYoloOutput
        ⟨[0, 0, 0, 0, 2, -17 / 5, 0, 0, 0, 0, 0, 0], [12]⟩ 1 1 1 1 (1 / 4) =
      [⟨(some 0, some 0, some 0, some 0), some 2, some (-3), none⟩] := by
  have hfloor : (⌊(-17 / 5 : ℚ) + 1 / 2⌋ : ℤ) = -3 := by
    rw [Int.floor_eq_iff]
    norm_num
  unfold ModelWorker.processYoloOutput
  dsimp only
  rw [if_neg (by simp), if_pos (by simp)]
  norm_num [fallbackRecords, fallbackStep, jread, jgeQ, jmulQ, jsub, jdivQ, jround, jminI,
    jindexI, min_def, hfloor, List.range_succ, List.filterMap_cons, List.filterMap_append,
    classNames]

/-! ## Preprocessor lemmas and claim C6 -/

theorem Float32Buffer.set_size (a : Float32Buffer) (i : ℕ) (v : ℚ) :
    (a.set i v).size = a.size := by
  unfold Float32Buffer.set
  split_ifs <;> rfl

theorem Float32Buffer.set_val_ne (a : Float32Buffer) (i j : ℕ) (v : ℚ) (h : j ≠ i) :
    (a.set i v).val j = a.val j := by
  unfold Float32Buffer.set
  split_ifs with hi
  · simp [h]
  · rfl

theorem Float32Buffer.set_val_self (a : Float32Buffer) (i : ℕ) (v : ℚ) (h : i < a.size) :
    (a.set i v).val i = v := by
  unfold Float32Buffer.set
  rw [if_pos h]
  simp

theorem euclid_unique {M q q' a a' : ℕ} (ha : a < M) (ha' : a' < M)
    (h : q * M + a = q' * M + a') : q = q' ∧ a = a' := by
  have hM : 0 < M := by omega
  have hq : q = q' := by
    have e1 : (q * M + a) / M = q := by
      rw [Nat.mul_comm q M, Nat.mul_add_div hM]
      simp [Nat.div_eq_of_lt ha]
    have e2 : (q' * M + a') / M = q' := by
      rw [Nat.mul_comm q' M, Nat.mul_add_div hM]
      simp [Nat.div_eq_of_lt ha']
    rw [← e1, ← e2, h]
  subst hq
  omega

theorem rowcol_lt {mW mH y x : ℕ} (hy : y < mH) (hx : x < mW) :
    y * mW + x < mH * mW := by
  have h1 : (y + 1) * mW ≤ mH * mW := Nat.mul_le_mul_right _ (by omega)
  have h2 : (y + 1) * mW = y * mW + mW := by ring
  omega

theorem chIdx_inj {mW mH ch ch' y y' x x' : ℕ} (hy : y < mH) (hy' : y' < mH)
    (hx : x < mW) (hx' : x' < mW)
    (heq : ch * mH * mW + y * mW + x = ch' * mH * mW + y' * mW + x') :
    ch = ch' ∧ y = y' ∧ x = x' := by
  have ha : y * mW + x < mH * mW := rowcol_lt hy hx
  have ha' : y' * mW + x' < mH * mW := rowcol_lt hy' hx'
  have heq2 : ch * (mH * mW) + (y * mW + x) = ch' * (mH * mW) + (y' * mW + x') := by
    have e1 : ch * mH * mW = ch * (mH * mW) := by ring
    have e2 : ch' * mH * mW = ch' * (mH * mW) := by ring
    omega
  obtain ⟨hch, hrest⟩ := euclid_unique ha ha' heq2
  obtain ⟨hyy, hxx⟩ := euclid_unique hx hx' hrest
  exact ⟨hch, hyy, hxx⟩

theorem chIdx_lt {mW mH ch y x : ℕ} (hch : ch < 3) (hy : y < mH) (hx : x < mW) :
    ch * mH * mW + y * mW + x < 3 * mH * mW := by
  have ha : y * mW + x < mH * mW := rowcol_lt hy hx
  have h2 : ch * mH * mW + mH * mW = (ch + 1) * (mH * mW) := by ring
  have h3 : (ch + 1) * (mH * mW) ≤ 3 * (mH * mW) := Nat.mul_le_mul_right _ (by omega)
  have h4 : 3 * (mH * mW) = 3 * mH * mW := by ring
  omega

theorem foldl_size {α : Type} (g : Float32Buffer → α → Float32Buffer)
    (hg : ∀ b a, (g b a).size = b.size) (l : List α) (buf : Float32Buffer) :
    (l.foldl g buf).size = buf.size := by
  induction l generalizing buf with
  | nil => rfl
  | cons a l ih => rw [List.foldl_cons, ih, hg]

theorem foldl_val_eq {α : Type} (g : Float32Buffer → α → Float32Buffer) (j : ℕ)
    (l : List α) (buf : Float32Buffer)
    (h : ∀ b, ∀ a ∈ l, (g b a).val j = b.val j) : (l.foldl g buf).val j = buf.val j := by
  induction l generalizing buf with
  | nil => rfl
  | cons a l ih =>
      rw [List.foldl_cons, ih _ (fun b c hc => h b c (List.mem_cons_of_mem a hc)),
        h buf a (List.mem_cons_self a l)]

theorem foldl_pred {α β : Type} (P : β → Prop) (g : β → α → β) (l : List α) (buf : β)
    (h0 : P buf) (hstep : ∀ b a, P b → P (g b a)) : P (l.foldl g buf) := by
  induction l generalizing buf with
  | nil => exact h0
  | cons a l ih => exact ih (g buf a) (hstep buf a h0)

theorem foldl_range'_hit (g : Float32Buffer → ℕ → Float32Buffer) (j x0 : ℕ) (v : ℚ) (S B : ℕ)
    (hsize : ∀ b a, (g b a).size = b.size)
    (hhit : ∀ b : Float32Buffer, b.size = S → (g b x0).val j = v)
    (hmiss : ∀ b a, a ≠ x0 → a < B → (g b a).val j = b.val j) :
    ∀ (n s : ℕ), s + n ≤ B → ∀ buf : Float32Buffer, buf.size = S → s ≤ x0 → x0 < s + n →
      ((List.range' s n).foldl g buf).val j = v := by
  intro n
  induction n with
  | zero => intro s hB buf hb h1 h2; omega
  | succ n ih =>
      intro s hB buf hb h1 h2
      rw [List.range'_succ, List.foldl_cons]
      by_cases hs : s = x0
      · subst hs
        rw [foldl_val_eq g j _ _ ?_, hhit buf hb]
        intro b a ha
        have h3 := List.mem_range'_1.mp ha
        exact hmiss b a (by omega) (by omega)
      · exact ih (s + 1) (by omega) (g buf s) (by rw [hsize, hb]) (by omega) (by omega)

theorem pixelWrite_size (bytes : ℕ → ℕ) (mW mH : ℕ) (buf : Float32Buffer) (y x : ℕ) :
    (pixelWrite bytes mW mH buf y x).size = buf.size := by
  unfold pixelWrite
  rw [Float32Buffer.set_size, Float32Buffer.set_size, Float32Buffer.set_size]

theorem pixelWrite_val_ne (bytes : ℕ → ℕ) (mW mH : ℕ) (buf : Float32Buffer) (y x j : ℕ)
    (h0 : j ≠ 0 * mH * mW + y * mW + x) (h1 : j ≠ 1 * mH * mW + y * mW + x)
    (h2 : j ≠ 2 * mH * mW + y * mW + x) :
    (pixelWrite bytes mW mH buf y x).val j = buf.val j := by
  unfold pixelWrite
  rw [Float32Buffer.set_val_ne _ _ _ _ h2, Float32Buffer.set_val_ne _ _ _ _ h1,
    Float32Buffer.set_val_ne _ _ _ _ h0]

theorem pixelWrite_val_hit (bytes : ℕ → ℕ) (mW mH : ℕ) (buf : Float32Buffer) (y x ch : ℕ)
    (hch : ch < 3) (hy : y < mH) (hx : x < mW) (hsize : buf.size = 3 * mH * mW) :
    (pixelWrite bytes mW mH buf y x).val (ch * mH * mW + y * mW + x) =
      (bytes ((y * mW + x) * 4 + ch) : ℚ) / 255 := by
  have hne : ∀ c c' : ℕ, c ≠ c' →
      c * mH * mW + y * mW + x ≠ c' * mH * mW + y * mW + x := by
    intro c c' hcc heq
    exact hcc (chIdx_inj hy hy hx hx heq).1
  unfold pixelWrite
  interval_cases ch
  · rw [Float32Buffer.set_val_ne _ _ _ _ (hne 0 2 (by omega)),
      Float32Buffer.set_val_ne _ _ _ _ (hne 0 1 (by omega)),
      Float32Buffer.set_val_self _ _ _ (by rw [hsize]; exact chIdx_lt (by omega) hy hx)]
    norm_num
  · rw [Float32Buffer.set_val_ne _ _ _ _ (hne 1 2 (by omega)),
      Float32Buffer.set_val_self _ _ _
        (by rw [Float32Buffer.set_size, hsize]; exact chIdx_lt (by omega) hy hx)]
  · rw [Float32Buffer.set_val_self _ _ _
      (by rw [Float32Buffer.set_size, Float32Buffer.set_size, hsize]
          exact chIdx_lt (by omega) hy hx)]


theorem rowWrite_size (bytes : ℕ → ℕ) (mW mH : ℕ) (buf : Float32Buffer) (y : ℕ) :
    (rowWrite bytes mW mH buf y).size = buf.size := by
  unfold rowWrite
  exact foldl_size _ (fun b a => pixelWrite_size bytes mW mH b y a) _ buf

theorem rowWrite_val_miss (bytes : ℕ → ℕ) (mW mH : ℕ) (buf : Float32Buffer)
    (y2 ch y x : ℕ) (hy : y < mH) (hx : x < mW) (hy2 : y2 ≠ y)
    (hy2m : y2 < mH) :
    (rowWrite bytes mW mH buf y2).val (ch * mH * mW + y * mW + x) =
      buf.val (ch * mH * mW + y * mW + x) := by
  unfold rowWrite
  apply foldl_val_eq
  intro b x2 hx2
  rw [List.mem_range] at hx2
  apply pixelWrite_val_ne
  all_goals intro heq
  · exact hy2 (chIdx_inj hy hy2m hx hx2 heq).2.1.symm
  · exact hy2 (chIdx_inj hy hy2m hx hx2 heq).2.1.symm
  · exact hy2 (chIdx_inj hy hy2m hx hx2 heq).2.1.symm

theorem rowWrite_val_hit (bytes : ℕ → ℕ) (mW mH : ℕ) (buf : Float32Buffer)
    (y x ch : ℕ) (hch : ch < 3) (hy : y < mH) (hx : x < mW)
    (hsize : buf.size = 3 * mH * mW) :
    (rowWrite bytes mW mH buf y).val (ch * mH * mW + y * mW + x) =
      (bytes ((y * mW + x) * 4 + ch) : ℚ) / 255 := by
  unfold rowWrite
  rw [List.range_eq_range']
  refine foldl_range'_hit (fun b2 x2 => pixelWrite bytes mW mH b2 y x2)
    (ch * mH * mW + y * mW + x) x _ (3 * mH * mW) mW
    (fun b a => pixelWrite_size bytes mW mH b y a)
    (fun b hb => pixelWrite_val_hit bytes mW mH b y x ch hch hy hx hb)
    (fun b a hax ha => ?_) mW 0 (by omega) buf hsize (by omega) (by omega)
  apply pixelWrite_val_ne
  all_goals intro heq
  · exact hax (chIdx_inj hy hy hx ha heq).2.2.symm
  · exact hax (chIdx_inj hy hy hx ha heq).2.2.symm
  · exact hax (chIdx_inj hy hy hx ha heq).2.2.symm

/-- Claim C6: for every decoded image (modelled by its resized RGBA byte
array, each sample in 0..255), `preprocessImage` returns a buffer of
length exactly `3·modelHeight·modelWidth` whose every element lies in
[0, 1], laid out channel-major then row-major: the element for channel
`ch`, row `y`, column `x` sits at `ch·modelHeight·modelWidth + y·modelWidth + x`
and equals the corresponding 8-bit sample divided by 255 (alpha is never
read), and `originalWidth`/`originalHeight` record the pre-resize source
dimensions. -/
theorem preprocess_layout (bytes : ℕ → ℕ) (oW oH mW mH : ℕ)
    (hbytes : ∀ i, bytes i ≤ 255) :
    (preprocessImage bytes oW oH mW mH).tensor.size = 3 * mH * mW ∧
      (∀ j, 0 ≤ (preprocessImage bytes oW oH mW mH).tensor.val j ∧
        (preprocessImage bytes oW oH mW mH).tensor.val j ≤ 1) ∧
      (∀ ch y x, ch < 3 → y < mH → x < mW →
        (preprocessImage bytes oW oH mW mH).tensor.val (ch * mH * mW + y * mW + x) =
          (bytes ((y * mW + x) * 4 + ch) : ℚ) / 255) ∧
      (preprocessImage bytes oW oH mW mH).originalWidth = oW ∧
      (preprocessImage bytes oW oH mW mH).originalHeight = oH := by
  refine ⟨?_, ?_, ?_, rfl, rfl⟩
  · show ((List.range mH).foldl (rowWrite bytes mW mH)
      (Float32Buffer.new (3 * mH * mW))).size = 3 * mH * mW
    rw [foldl_size _ (fun b a => rowWrite_size bytes mW mH b a)]
    rfl
  · intro j
    show 0 ≤ ((List.range mH).foldl (rowWrite bytes mW mH)
        (Float32Buffer.new (3 * mH * mW))).val j ∧ _
    have hbound : ∀ p : ℕ, 0 ≤ (bytes p : ℚ) / 255 ∧ (bytes p : ℚ) / 255 ≤ 1 := by
      intro p
      constructor
      · positivity
      · rw [div_le_one (by norm_num)]
        exact_mod_cast hbytes p
    have hset : ∀ (a : Float32Buffer) (i : ℕ) (v : ℚ),
        (0 ≤ v ∧ v ≤ 1) → (∀ k, 0 ≤ a.val k ∧ a.val k ≤ 1) →
        ∀ k, 0 ≤ (a.set i v).val k ∧ (a.set i v).val k ≤ 1 := by
      intro a i v hv hP k
      unfold Float32Buffer.set
      split_ifs with hi
      · dsimp only
        split_ifs with hk
        · exact hv
        · exact hP k
      · exact hP k
    have := foldl_pred (fun b : Float32Buffer => ∀ k, 0 ≤ b.val k ∧ b.val k ≤ 1)
      (rowWrite bytes mW mH) (List.range mH) (Float32Buffer.new (3 * mH * mW))
      (fun k => by constructor <;> simp [Float32Buffer.new])
      ?_
    · exact this j
    · intro b y hP
      unfold rowWrite
      exact foldl_pred (fun b2 : Float32Buffer => ∀ k, 0 ≤ b2.val k ∧ b2.val k ≤ 1)
        (fun buf2 x => pixelWrite bytes mW mH buf2 y x) (List.range mW) b hP
        (fun b2 x hP2 => by
          unfold pixelWrite
          exact hset _ _ _ (hbound _) (hset _ _ _ (hbound _) (hset _ _ _ (hbound _) hP2)))
  · intro ch y x hch hy hx
    show ((List.range mH).foldl (rowWrite bytes mW mH)
        (Float32Buffer.new (3 * mH * mW))).val (ch * mH * mW + y * mW + x) = _
    rw [List.range_eq_range']
    refine foldl_range'_hit (rowWrite bytes mW mH) (ch * mH * mW + y * mW + x) y _
      (3 * mH * mW) mH
      (fun b a => rowWrite_size bytes mW mH b a)
      (fun b hb => rowWrite_val_hit bytes mW mH b y x ch hch hy hx hb)
      (fun b y2 hy2 hy2b => rowWrite_val_miss bytes mW mH b y2 ch y x hy hx hy2 hy2b)
      mH 0 (by omega) _ rfl (by omega) (by omega)

/-- Claim C6 witness: a constant 2x2 sample image preprocesses to a
12-element buffer. -/
theorem preprocess_layout_witness :
    ((fun _ : ℕ => 102) 0 ≤ 255) ∧
      (preprocessImage (fun _ : ℕ => 102) 10 20 2 2).tensor.size = 3 * 2 * 2 :=
  ⟨by norm_num, (preprocess_layout (fun _ : ℕ => 102) 10 20 2 2 (fun i => by norm_num)).1⟩

end BirdEye
